import Mathlib

/-!
Shallow embedding of the CertifyEye certificate scanner (src/modules/scanner.js),
its recurring-scan scheduler, the SQLite-backed database module and the
POST /api/scan route handler, together with theorems settling the frozen
specification claims.

Modelling conventions:
* JavaScript numbers that hold timestamps are modelled as `Int` millisecond
  epoch values; `moment(...).format(...)` date rendering is abstracted to the
  timestamp itself (it is injective and no claim depends on the rendered text).
* Machine words in the SHA-256 computation are `Nat` values kept below `2^32`
  by explicit `% 2^32` reductions, exactly where JS/forge arithmetic wraps.
* The TLS network interaction of `getCertificate` is abstracted into a
  `NetOutcome` input describing what the socket produced; everything after the
  handshake callback is translated from the source.
* forge's DER decoding (`forge.asn1.fromDer` / `pki.certificateFromAsn1`) is
  abstracted as a `RawParse` input carrying either the decoded certificate
  model or a decode failure, mirroring the try/catch around `convertToPem`.
* JS `||` fallbacks on strings are modelled by `jsOrString` (empty string and
  `undefined` are the falsy cases that occur); on optional values by
  `Option.getD` / `<|>`.
-/

/-! ## SHA-256 over byte lists (forge.md.sha256), Nat-based -/

/-- Word modulus: 2^32. -/
def M32 : Nat := 4294967296

/-- Rotate a 32-bit word right by `n`. -/
def rotr (n w : Nat) : Nat := (w >>> n ||| w <<< (32 - n)) % M32

/-- Choice function of the SHA-256 round. -/
def shaCh (x y z : Nat) : Nat := (x &&& y) ^^^ ((x ^^^ 4294967295) &&& z)

/-- Majority function of the SHA-256 round. -/
def shaMaj (x y z : Nat) : Nat := (x &&& y) ^^^ (x &&& z) ^^^ (y &&& z)

/-- Big sigma-0 of SHA-256. -/
def bigSigma0 (x : Nat) : Nat := rotr 2 x ^^^ rotr 13 x ^^^ rotr 22 x

/-- Big sigma-1 of SHA-256. -/
def bigSigma1 (x : Nat) : Nat := rotr 6 x ^^^ rotr 11 x ^^^ rotr 25 x

/-- Small sigma-0 of SHA-256. -/
def smallSigma0 (x : Nat) : Nat := rotr 7 x ^^^ rotr 18 x ^^^ (x >>> 3)

/-- Small sigma-1 of SHA-256. -/
def smallSigma1 (x : Nat) : Nat := rotr 17 x ^^^ rotr 19 x ^^^ (x >>> 10)

/-- Round constants of SHA-256 (decimal rendering of the standard table). -/
def shaK : List Nat :=
  [1116352408, 1899447441, 3049323471, 3921009573, 961987163, 1508970993,
   2453635748, 2870763221, 3624381080, 310598401, 607225278, 1426881987,
   1925078388, 2162078206, 2614888103, 3248222580, 3835390401, 4022224774,
   264347078, 604807628, 770255983, 1249150122, 1555081692, 1996064986,
   2554220882, 2821834349, 2952996808, 3210313671, 3336571891, 3584528711,
   113926993, 338241895, 666307205, 773529912, 1294757372, 1396182291,
   1695183700, 1986661051, 2177026350, 2456956037, 2730485921, 2820302411,
   3259730800, 3345764771, 3516065817, 3600352804, 4094571909, 275423344,
   430227734, 506948616, 659060556, 883997877, 958139571, 1322822218,
   1537002063, 1747873779, 1955562222, 2024104815, 2227730452, 2361852424,
   2428436474, 2756734187, 3204031479, 3329325298]

/-- Working state of the SHA-256 compression function: eight 32-bit words. -/
structure H8 where
  a : Nat
  b : Nat
  c : Nat
  d : Nat
  e : Nat
  f : Nat
  g : Nat
  h : Nat
  deriving DecidableEq

/-- Initial SHA-256 hash value. -/
def shaInit : H8 :=
  ⟨1779033703, 3144134277, 1013904242, 2773480762,
   1359893119, 2600822924, 528734635, 1541459225⟩

/-- One SHA-256 round; `kw` pairs the round constant with the schedule word. -/
def roundStep (s : H8) (kw : Nat × Nat) : H8 :=
  let t1 := (s.h + bigSigma1 s.e + shaCh s.e s.f s.g + kw.1 + kw.2) % M32
  let t2 := (bigSigma0 s.a + shaMaj s.a s.b s.c) % M32
  { a := (t1 + t2) % M32, b := s.a, c := s.b, d := s.c,
    e := (s.d + t1) % M32, f := s.e, g := s.f, h := s.g }

/-- Pack big-endian groups of four bytes into 32-bit words. -/
def bytesToWords : List Nat → List Nat
  | b0 :: b1 :: b2 :: b3 :: rest =>
      ((b0 % 256) <<< 24 ||| (b1 % 256) <<< 16 ||| (b2 % 256) <<< 8 ||| (b3 % 256)) :: bytesToWords rest
  | _ => []

/-- Extend a 16-word block with one more schedule word. -/
def scheduleStep (w : List Nat) : List Nat :=
  w ++ [(smallSigma1 (w.getD (w.length - 2) 0) + w.getD (w.length - 7) 0 +
         smallSigma0 (w.getD (w.length - 15) 0) + w.getD (w.length - 16) 0) % M32]

/-- Message schedule: extend 16 words to 64. -/
def scheduleWords (ws : List Nat) : List Nat :=
  (List.range 48).foldl (fun w _ => scheduleStep w) ws

/-- Compress one 64-byte block into the running hash. -/
def compressBlock (h : H8) (block : List Nat) : H8 :=
  let w := scheduleWords (bytesToWords block)
  let s := (shaK.zip w).foldl roundStep h
  { a := (h.a + s.a) % M32, b := (h.b + s.b) % M32, c := (h.c + s.c) % M32,
    d := (h.d + s.d) % M32, e := (h.e + s.e) % M32, f := (h.f + s.f) % M32,
    g := (h.g + s.g) % M32, h := (h.h + s.h) % M32 }

/-- SHA-256 padding: append `0x80`, zeros, and the 64-bit big-endian bit length. -/
def padMessage (msg : List Nat) : List Nat :=
  let bitLen := msg.length * 8
  let k := (119 - msg.length % 64) % 64
  msg ++ [128] ++ List.replicate k 0 ++
    [(bitLen >>> 56) % 256, (bitLen >>> 48) % 256, (bitLen >>> 40) % 256, (bitLen >>> 32) % 256,
     (bitLen >>> 24) % 256, (bitLen >>> 16) % 256, (bitLen >>> 8) % 256, bitLen % 256]

/-- Split a list into `n` chunks of 64 elements. -/
def chunkN : Nat → List Nat → List (List Nat)
  | 0, _ => []
  | n + 1, l => l.take 64 :: chunkN n (l.drop 64)

/-- Big-endian bytes of a 32-bit word. -/
def wordBytes (w : Nat) : List Nat :=
  [(w >>> 24) % 256, (w >>> 16) % 256, (w >>> 8) % 256, w % 256]

/-- Digest bytes of a final hash state. -/
def h8ToBytes (s : H8) : List Nat :=
  wordBytes s.a ++ wordBytes s.b ++ wordBytes s.c ++ wordBytes s.d ++
  wordBytes s.e ++ wordBytes s.f ++ wordBytes s.g ++ wordBytes s.h

/-- SHA-256 digest of a byte list, as 32 bytes. -/
def sha256 (msg : List Nat) : List Nat :=
  let padded := padMessage msg
  h8ToBytes ((chunkN (padded.length / 64) padded).foldl compressBlock shaInit)

/-- Lower-case hexadecimal digits. -/
def hexDigits : List Char := "0123456789abcdef".data

/-- Character for one hex digit. -/
def hexDigit (n : Nat) : Char := hexDigits.getD n '0'

/-- Two lower-case hex characters of one byte (forge `toHex` pair). -/
def byteHex (b : Nat) : String := String.mk [hexDigit (b / 16 % 16), hexDigit (b % 16)]

/-- Colon-joined lower-case hex fingerprint of DER bytes:
`md.digest().toHex().match(/.{2}/g).join(':')` in `parseCertificate`. -/
def sha256Fingerprint (bytes : List Nat) : String :=
  String.intercalate ":" ((sha256 bytes).map byteHex)

example : sha256Fingerprint [] =
    "e3:b0:c4:42:98:fc:1c:14:9a:fb:f4:c8:99:6f:b9:24:27:ae:41:e4:64:9b:93:4c:a4:95:99:1b:78:52:b8:55" := by
  decide

example : sha256Fingerprint [97, 98, 99] =
    "ba:78:16:bf:8f:01:cf:ea:41:41:40:de:5d:ae:22:23:b0:03:61:a3:96:17:7a:9c:b4:10:ff:61:f2:00:15:ad" := by
  decide

/-! ## Distinguished names and the forge certificate model -/

/-- One attribute of a forge distinguished name; an absent `shortName` is the
empty string (the JS falsy case of `attr.shortName || attr.name`). -/
structure DNAttr where
  shortName : String
  name : String
  value : String
  deriving DecidableEq

/-- Forge distinguished name: attribute sequence in certificate-defined order.
`attributes = none` models a DN object without an `attributes` field. -/
structure DN where
  attributes : Option (List DNAttr)
  deriving DecidableEq

/-- JS `s || d` for strings delivered as `Option String`: `undefined` and the
empty string fall back to the default. -/
def jsOrString : Option String → String → String
  | none, d => d
  | some s, d => if s = "" then d else s

/-- formatDN from scanner.js: `Unknown` when the DN or its attribute field is
missing, else `ShortName=Value` pairs joined by a comma and space. -/
def formatDN : Option DN → String
  | none => "Unknown"
  | some dn =>
    match dn.attributes with
    | none => "Unknown"
    | some attrs =>
        String.intercalate ", "
          (attrs.map (fun a => (if a.shortName = "" then a.name else a.shortName) ++ "=" ++ a.value))

/-- Subject/issuer resolution in parseCertificate:
`cert.subject && typeof cert.subject === 'object' ? formatDN(cert.subject) : null`
followed by `|| 'Unknown'` (the empty join of a zero-attribute DN is falsy). -/
def dnOrUnknown : Option DN → String
  | none => "Unknown"
  | some dn => if formatDN (some dn) = "" then "Unknown" else formatDN (some dn)

/-- Attribute search used for commonName/organization in parseCertificate:
find the first attribute whose long name or short name matches (forge
`getField` and the explicit `attributes.find` branch coincide on this). -/
def findAttr (d : Option DN) (longName shortN : String) : String :=
  match d with
  | none => ""
  | some dn =>
    match (dn.attributes.getD []).find? (fun a => a.name == longName || a.shortName == shortN) with
    | some a => a.value
    | none => ""

/-- Key usage extension flags of a forge certificate. -/
structure KeyUsageFlags where
  digitalSignature : Bool
  nonRepudiation : Bool
  keyEncipherment : Bool
  dataEncipherment : Bool
  keyAgreement : Bool
  keyCertSign : Bool
  cRLSign : Bool
  deriving DecidableEq

/-- Ordered human-readable key usage labels from parseCertificate. -/
def keyUsageList : Option KeyUsageFlags → List String
  | none => []
  | some f =>
      (if f.digitalSignature then ["Digital Signature"] else []) ++
      (if f.nonRepudiation then ["Non Repudiation"] else []) ++
      (if f.keyEncipherment then ["Key Encipherment"] else []) ++
      (if f.dataEncipherment then ["Data Encipherment"] else []) ++
      (if f.keyAgreement then ["Key Agreement"] else []) ++
      (if f.keyCertSign then ["Certificate Signing"] else []) ++
      (if f.cRLSign then ["CRL Signing"] else [])

/-- Forge X.509 certificate model as consumed by parseCertificate.
`derBytes` is the DER re-encoding fingerprinted by
`forge.asn1.toDer(forge.pki.certificateToAsn1(cert))`. -/
structure ForgeCert where
  subject : Option DN
  issuer : Option DN
  notBefore : Int
  notAfter : Int
  derBytes : List Nat
  siginfoOid : Option String
  signatureOid : Option String
  keyUsageExt : Option KeyUsageFlags
  deriving DecidableEq

/-- OID table of parseCertificate. -/
def oidTable : List (String × String) :=
  [("1.2.840.113549.1.1.1", "RSA"),
   ("1.2.840.113549.1.1.2", "MD2withRSA"),
   ("1.2.840.113549.1.1.4", "MD5withRSA"),
   ("1.2.840.113549.1.1.5", "SHA1withRSA"),
   ("1.2.840.113549.1.1.11", "SHA256withRSA"),
   ("1.2.840.113549.1.1.12", "SHA384withRSA"),
   ("1.2.840.113549.1.1.13", "SHA512withRSA"),
   ("1.2.840.10045.4.3.2", "ECDSA with SHA256"),
   ("1.2.840.10045.4.3.3", "ECDSA with SHA384")]

/-- Signature-algorithm resolution: known OIDs map to display names, unknown
ones surface verbatim as `OID: <value>`, falling back to `cert.signatureOid`. -/
def sigAlgName (c : ForgeCert) : String :=
  match c.siginfoOid with
  | some oid => (oidTable.lookup oid).getD ("OID: " ++ oid)
  | none =>
    match c.signatureOid with
    | some oid => "OID: " ++ oid
    | none => "unknown"

/-- Decoder output record (the object literal built at the end of
parseCertificate). `validFrom`/`validTo` carry the certificate validity
timestamps; the moment date rendering is abstracted. -/
structure ParsedCertData where
  host : String
  port : Int
  subject : String
  issuer : String
  commonName : String
  organization : String
  validFrom : Int
  validTo : Int
  fingerprint : String
  signatureAlgorithm : String
  selfSigned : Bool
  daysRemaining : Int
  keyUsage : String
  status : String
  lastScanned : Int
  deriving DecidableEq

/-- parseCertificate from scanner.js: decode a forge certificate into the
record with classification, self-signed flag and SHA-256 fingerprint.
`daysRemaining = Math.floor((validTo - now) / 86400000)` is floor division.
Forge certificates carry no `host`/`port` properties, so
`cert.host || commonName` and `cert.port || 443` resolve to the fallbacks. -/
def parseCertificate (c : ForgeCert) (now : Int) : ParsedCertData :=
  let daysRemaining := (c.notAfter - now).fdiv 86400000
  let subject := dnOrUnknown c.subject
  let issuer := dnOrUnknown c.issuer
  let commonName := findAttr c.subject "commonName" "CN"
  let organization := findAttr c.subject "organizationName" "O"
  { host := commonName
    port := 443
    subject := subject
    issuer := issuer
    commonName := commonName
    organization := organization
    validFrom := c.notBefore
    validTo := c.notAfter
    fingerprint := sha256Fingerprint c.derBytes
    signatureAlgorithm := sigAlgName c
    selfSigned := issuer == subject
    daysRemaining := daysRemaining
    keyUsage := String.intercalate ", " (keyUsageList c.keyUsageExt)
    status := if daysRemaining < 0 then "expired" else if daysRemaining < 30 then "warning" else "valid"
    lastScanned := now }

/-! ## Raw handshake-side certificate data (node tls peer certificate) -/

/-- Raw peer subject/issuer as node delivers it: either a single string or an
object of short-name fields. -/
inductive RawDN where
  | str (s : String)
  | obj (fields : List (String × String))
  deriving DecidableEq

/-- Outcome of the forge decode of `cert.raw`: the raw buffer may be absent,
may fail `convertToPem`/`parseCertificate` (caught by the try/catch), or may
decode to a forge certificate model. -/
inductive RawParse where
  | absent
  | failed (msg : String)
  | parsed (fc : ForgeCert)
  deriving DecidableEq

/-- Peer certificate object returned by `socket.getPeerCertificate(true)`.
Date strings are abstracted as millisecond timestamps. -/
structure RawPeerCert where
  subject : Option RawDN
  issuer : Option RawDN
  valid_from : Option Int
  valid_to : Option Int
  validFrom : Option Int
  validTo : Option Int
  fingerprint : Option String
  serialNumber : Option String
  raw : RawParse
  deriving DecidableEq

/-- Regex extraction `new RegExp(fieldName + "=([^,]+)")` on the subject
string: scan for the first position where the pattern is followed by at
least one non-comma character and return that run. -/
def extractFrom (pat : List Char) : List Char → Option (List Char)
  | [] => none
  | c :: rest =>
      if pat = (c :: rest).take pat.length then
        let v := ((c :: rest).drop pat.length).takeWhile (fun ch => ch ≠ ',')
        if v = [] then extractFrom pat rest else some v
      else extractFrom pat rest

/-- extractSubjectField from scanner.js: regex capture on a string subject,
field lookup (with `|| ''`) on an object subject, `''` otherwise. -/
def extractSubjectField (cert : RawPeerCert) (fieldName : String) : String :=
  match cert.subject with
  | none => ""
  | some (.str s) =>
    match extractFrom (fieldName.data ++ ['=']) s.data with
    | some v => String.mk v
    | none => ""
  | some (.obj fields) => (fields.lookup fieldName).getD ""

/-- Truthy field lookup used by formatRawIssuer (`if (issuer.O) ...`). -/
def truthyVal (fields : List (String × String)) (k : String) : Option String :=
  match fields.lookup k with
  | some v => if v = "" then none else some v
  | none => none

/-- formatRawIssuer from scanner.js. -/
def formatRawIssuer : Option RawDN → String
  | none => "Unknown"
  | some (.str s) => s
  | some (.obj fields) =>
    match truthyVal fields "O" with
    | some v => v
    | none =>
      match truthyVal fields "CN" with
      | some v => v
      | none =>
          let s := String.intercalate ", "
            ((fields.filter (fun kv => kv.2 ≠ "")).map (fun kv => kv.1 ++ "=" ++ kv.2))
          if s = "" then "Unknown" else s

/-- calculateDaysRemaining from scanner.js: 0 when `validTo` is absent, else
floor of the millisecond difference divided by one day. -/
def calculateDaysRemaining (validTo : Option Int) (now : Int) : Int :=
  match validTo with
  | none => 0
  | some t => (t - now).fdiv 86400000

/-- Fields of the `rawCertData` object literal built inside getCertificate. -/
structure RawCertData where
  host : String
  port : Int
  status : String
  lastScanned : Int
  commonName : String
  organization : String
  issuer : String
  validFrom : Option Int
  validTo : Option Int
  daysRemaining : Int
  fingerprint : String
  serialNumber : String
  deriving DecidableEq

/-- The `rawCertData` literal of getCertificate: note the hard-coded
`status: 'valid'`. -/
def mkRawCertData (host : String) (port : Int) (cert : RawPeerCert) (now : Int) : RawCertData :=
  { host := host
    port := port
    status := "valid"
    lastScanned := now
    commonName := extractSubjectField cert "CN"
    organization := extractSubjectField cert "O"
    issuer := formatRawIssuer cert.issuer
    validFrom := cert.valid_from <|> cert.validFrom
    validTo := cert.valid_to <|> cert.validTo
    daysRemaining := calculateDaysRemaining (cert.valid_to <|> cert.validTo) now
    fingerprint := jsOrString cert.fingerprint "Unknown"
    serialNumber := jsOrString cert.serialNumber "Unknown" }

/-! ## The merged certificate record of getCertificate -/

/-- Record shape resolved by getCertificate: the union of the raw and parsed
key sets. Keys present only in `parsedCert` are `Option`-typed because the
raw-data-only resolutions leave them undefined. -/
structure CombinedCert where
  host : String
  port : Int
  status : String
  lastScanned : Int
  commonName : String
  organization : String
  issuer : String
  validFrom : Option Int
  validTo : Option Int
  daysRemaining : Int
  fingerprint : String
  serialNumber : String
  subject : Option String
  signatureAlgorithm : Option String
  selfSigned : Option Bool
  keyUsage : Option String
  deriving DecidableEq

/-- Resolution of `rawCertData` alone (no `cert.raw`, or forge failure). -/
def combinedFromRawOnly (r : RawCertData) : CombinedCert :=
  { host := r.host, port := r.port, status := r.status, lastScanned := r.lastScanned,
    commonName := r.commonName, organization := r.organization, issuer := r.issuer,
    validFrom := r.validFrom, validTo := r.validTo, daysRemaining := r.daysRemaining,
    fingerprint := r.fingerprint, serialNumber := r.serialNumber,
    subject := none, signatureAlgorithm := none, selfSigned := none, keyUsage := none }

/-- The `combinedData` spread `{ ...parsedCert, ...rawCertData, host, port,
commonName: raw || parsed, organization: raw || parsed, issuer: raw || parsed,
validFrom: raw || parsed, validTo: raw || parsed }`: keys present in both
objects take the raw value (the second spread wins), the five listed keys take
the raw value with a falsy-fallback to the parsed one, and keys present only
in `parsedCert` keep the parsed value. -/
def combine (parsed : ParsedCertData) (raw : RawCertData) : CombinedCert :=
  { host := raw.host
    port := raw.port
    status := raw.status
    lastScanned := raw.lastScanned
    commonName := if raw.commonName = "" then parsed.commonName else raw.commonName
    organization := if raw.organization = "" then parsed.organization else raw.organization
    issuer := if raw.issuer = "" then parsed.issuer else raw.issuer
    validFrom := some (raw.validFrom.getD parsed.validFrom)
    validTo := some (raw.validTo.getD parsed.validTo)
    daysRemaining := raw.daysRemaining
    fingerprint := raw.fingerprint
    serialNumber := raw.serialNumber
    subject := some parsed.subject
    signatureAlgorithm := some parsed.signatureAlgorithm
    selfSigned := some parsed.selfSigned
    keyUsage := some parsed.keyUsage }

/-- What the TLS socket produced for one (host, port): a socket error, a
timeout, the stalled-connection watchdog, or a completed handshake with the
peer certificate (`none` when `getPeerCertificate` came back empty). -/
inductive NetOutcome where
  | connErr (reason : String)
  | timeout
  | stalled
  | handshake (peer : Option RawPeerCert)
  deriving DecidableEq

/-- getCertificate from scanner.js, as a function of the socket outcome: each
reject path becomes `Except.error` with the message built in the source, and
each resolve path produces the raw-only or combined record. -/
def getCertificate (host : String) (port : Int) (outcome : NetOutcome)
    (timeoutMs : Nat) (now : Int) : Except String CombinedCert :=
  match outcome with
  | .connErr reason => .error ("Connection error: " ++ reason)
  | .timeout => .error ("Connection timeout after " ++ toString timeoutMs ++ "ms")
  | .stalled => .error "Connection stalled - forcibly closed"
  | .handshake none => .error "No certificate found"
  | .handshake (some cert) =>
      let rawCertData := mkRawCertData host port cert now
      match cert.raw with
      | .absent => .ok (combinedFromRawOnly rawCertData)
      | .failed _ => .ok (combinedFromRawOnly rawCertData)
      | .parsed fc => .ok (combine (parseCertificate fc now) rawCertData)

/-! ## Batch scanner (scanHost / scanHosts) -/

/-- One entry of the result array of scanHost: either a resolved certificate
record, or the error object literal `{host, port, status: 'error', error,
lastScanned}` pushed by the catch block. -/
inductive ScanRecord where
  | ok (c : CombinedCert)
  | err (host : String) (port : Int) (msg : String) (lastScanned : Int)
  deriving DecidableEq

/-- Status field of a result entry. -/
def ScanRecord.status : ScanRecord → String
  | .ok c => c.status
  | .err _ _ _ _ => "error"

/-- Host field of a result entry. -/
def ScanRecord.host : ScanRecord → String
  | .ok c => c.host
  | .err h _ _ _ => h

/-- Port field of a result entry. -/
def ScanRecord.port : ScanRecord → Int
  | .ok c => c.port
  | .err _ p _ _ => p

/-- Error-reason field of a result entry (undefined on success records). -/
def ScanRecord.errMsg : ScanRecord → Option String
  | .ok _ => none
  | .err _ _ m _ => some m

/-- Per-port body of the scanHost loop: await getCertificate, push the record
on success, push the error record in the catch. -/
def scanRecordFor (net : String → Int → NetOutcome) (t : Nat) (now : Int)
    (host : String) (port : Int) : ScanRecord :=
  match getCertificate host port (net host port) t now with
  | .ok c => .ok c
  | .error e => .err host port e now

/-- scanHost from scanner.js: iterate the ports, accumulating one record per
port; a per-port failure is caught and recorded, never rethrown. -/
def scanHost (net : String → Int → NetOutcome) (host : String) (ports : List Int)
    (t : Nat) (now : Int) : List ScanRecord :=
  ports.foldl (fun results port => results ++ [scanRecordFor net t now host port]) []

/-- scanHosts from scanner.js: iterate the hosts (the CIDR / dash-range / plain
branches all call scanHost identically on the literal host string) and
concatenate the per-host results; scanHost is total, so the outer catch that
would push a single error entry is unreachable. -/
def scanHosts (net : String → Int → NetOutcome) (hosts : List String) (ports : List Int)
    (t : Nat) (now : Int) : List ScanRecord :=
  hosts.foldl (fun results host => results ++ scanHost net host ports t now) []

theorem foldl_push_eq_map {α β : Type} (f : α → β) (l : List α) (init : List β) :
    l.foldl (fun acc x => acc ++ [f x]) init = init ++ l.map f := by
  induction l generalizing init with
  | nil => simp
  | cons a as ih => simp [List.foldl_cons, ih]

theorem scanHost_eq_map (net : String → Int → NetOutcome) (host : String)
    (ports : List Int) (t : Nat) (now : Int) :
    scanHost net host ports t now = ports.map (scanRecordFor net t now host) := by
  simpa [scanHost] using foldl_push_eq_map (scanRecordFor net t now host) ports []

theorem foldl_append_init {α β : Type} (g : α → List β) (l : List α) (init : List β) :
    l.foldl (fun acc x => acc ++ g x) init = init ++ l.foldl (fun acc x => acc ++ g x) [] := by
  induction l generalizing init with
  | nil => simp
  | cons a as ih =>
      rw [List.foldl_cons, List.foldl_cons, ih (init ++ g a), ih ([] ++ g a)]
      simp

theorem scanHosts_cons (net : String → Int → NetOutcome) (h : String) (hs : List String)
    (ports : List Int) (t : Nat) (now : Int) :
    scanHosts net (h :: hs) ports t now =
      scanHost net h ports t now ++ scanHosts net hs ports t now := by
  unfold scanHosts
  rw [List.foldl_cons, foldl_append_init]
  simp

theorem scanHosts_length (net : String → Int → NetOutcome) (hosts : List String)
    (ports : List Int) (t : Nat) (now : Int) :
    (scanHosts net hosts ports t now).length = hosts.length * ports.length := by
  induction hosts with
  | nil => simp [scanHosts]
  | cons h hs ih =>
      rw [scanHosts_cons]
      simp [scanHost_eq_map, ih, Nat.succ_mul, Nat.add_comm]

theorem scanHosts_getElem (net : String → Int → NetOutcome) (hosts : List String)
    (ports : List Int) (t : Nat) (now : Int) (i j : Nat)
    (hi : i < hosts.length) (hj : j < ports.length) :
    (scanHosts net hosts ports t now)[i * ports.length + j]? =
      some (scanRecordFor net t now hosts[i] ports[j]) := by
  induction hosts generalizing i with
  | nil => simp at hi
  | cons h hs ih =>
      rw [scanHosts_cons]
      cases i with
      | zero =>
          have hlt : (0 : Nat) * ports.length + j < (scanHost net h ports t now).length := by
            simpa [scanHost_eq_map, Nat.zero_mul] using hj
          rw [List.getElem?_append_left hlt]
          simp only [Nat.zero_mul, Nat.zero_add, scanHost_eq_map, List.getElem?_map]
          simp [List.getElem?_eq_getElem hj]
      | succ i' =>
          have hlen : (scanHost net h ports t now).length = ports.length := by
            simp [scanHost_eq_map]
          have hge : (scanHost net h ports t now).length ≤ (i' + 1) * ports.length + j := by
            rw [hlen, Nat.succ_mul]
            omega
          rw [List.getElem?_append_right hge, hlen]
          have harith : (i' + 1) * ports.length + j - ports.length = i' * ports.length + j := by
            rw [Nat.succ_mul]; omega
          rw [harith]
          exact ih i' (by simpa using Nat.lt_of_succ_lt_succ (Nat.succ_lt_succ hi))

/-! ## Concrete fixtures -/

/-- A fixed scan instant (milliseconds). -/
def certNow : Int := 1700000000000

/-- A forge-decodable certificate that expired two days before `certNow`. -/
def forgeExpired : ForgeCert :=
  { subject := some ⟨some [⟨"CN", "commonName", "example.com"⟩]⟩
    issuer := some ⟨some [⟨"O", "organizationName", "ExampleCA"⟩]⟩
    notBefore := 1691360000000
    notAfter := 1699827200000
    derBytes := [48, 130, 1, 1]
    siginfoOid := some "1.2.840.113549.1.1.11"
    signatureOid := none
    keyUsageExt := none }

/-- The raw peer certificate of the same handshake: node-side fields plus the
forge-decodable raw buffer. -/
def peerExpired : RawPeerCert :=
  { subject := some (.obj [("CN", "example.com"), ("O", "Example Org")])
    issuer := some (.obj [("O", "RawExampleCA")])
    valid_from := some 1691360000000
    valid_to := some 1699827200000
    validFrom := none
    validTo := none
    fingerprint := some "AB:CD"
    serialNumber := some "01"
    raw := .parsed forgeExpired }

/-- C1. The claim states that every record of a successful scan satisfies
`status = expired ↔ daysRemaining < 0` (etc.). The code computes that rule in
parseCertificate, but getCertificate then spreads `rawCertData` — whose
`status` is hard-coded to `'valid'` — over the parsed record, so a successful
scan of an expired certificate resolves `daysRemaining = -2` together with
`status = 'valid'`, while its own decoder classified it `'expired'`. -/
theorem getCertificate_expired_status_bug :
    (getCertificate "example.com" 443 (NetOutcome.handshake (some peerExpired)) 5000 certNow).toOption.map
        (fun r => (r.daysRemaining, r.status)) = some (-2, "valid") ∧
      (parseCertificate forgeExpired certNow).status = "expired" := by
  decide

/-- C2 counterexample. The decoder's fingerprint is present (a non-empty
SHA-256 colon-hex string), yet the merged record silently carries the raw
handshake fingerprint instead: the merge prefers raw fields, not decoder
fields. -/
theorem getCertificate_merge_overwrites_decoder :
    (getCertificate "example.com" 443 (NetOutcome.handshake (some peerExpired)) 5000 certNow).toOption.map
        (fun r => r.fingerprint) = some "AB:CD" ∧
      (parseCertificate forgeExpired certNow).fingerprint ≠ "AB:CD" ∧
      (parseCertificate forgeExpired certNow).fingerprint ≠ "" := by
  decide

/-- C2 amended. When both extractions succeed, the merge prefers the RAW
handshake values: keys present in both records (host, port, status,
lastScanned, daysRemaining, fingerprint, serialNumber) always take the raw
value; commonName, organization, issuer, validFrom, validTo take the raw value
with a fallback to the decoder's only when the raw value is absent/empty; only
the keys missing from the raw record (subject, signatureAlgorithm, selfSigned,
keyUsage) are taken from the decoder. -/
theorem getCertificate_merge_raw_precedence
    (host : String) (port : Int) (peer : RawPeerCert) (fc : ForgeCert) (t : Nat) (now : Int)
    (hraw : peer.raw = RawParse.parsed fc) :
    getCertificate host port (NetOutcome.handshake (some peer)) t now =
      Except.ok (combine (parseCertificate fc now) (mkRawCertData host port peer now)) ∧
    ∀ parsed raw,
      (combine parsed raw).host = raw.host ∧
      (combine parsed raw).port = raw.port ∧
      (combine parsed raw).status = raw.status ∧
      (combine parsed raw).lastScanned = raw.lastScanned ∧
      (combine parsed raw).daysRemaining = raw.daysRemaining ∧
      (combine parsed raw).fingerprint = raw.fingerprint ∧
      (combine parsed raw).serialNumber = raw.serialNumber ∧
      (combine parsed raw).commonName = (if raw.commonName = "" then parsed.commonName else raw.commonName) ∧
      (combine parsed raw).organization = (if raw.organization = "" then parsed.organization else raw.organization) ∧
      (combine parsed raw).issuer = (if raw.issuer = "" then parsed.issuer else raw.issuer) ∧
      (combine parsed raw).validFrom = some (raw.validFrom.getD parsed.validFrom) ∧
      (combine parsed raw).validTo = some (raw.validTo.getD parsed.validTo) ∧
      (combine parsed raw).subject = some parsed.subject ∧
      (combine parsed raw).signatureAlgorithm = some parsed.signatureAlgorithm ∧
      (combine parsed raw).selfSigned = some parsed.selfSigned ∧
      (combine parsed raw).keyUsage = some parsed.keyUsage := by
  constructor
  · simp [getCertificate, hraw]
  · intro parsed raw
    exact ⟨rfl, rfl, rfl, rfl, rfl, rfl, rfl, rfl, rfl, rfl, rfl, rfl, rfl, rfl, rfl, rfl⟩

/-- C2 witness: the amended merge theorem applied to the concrete handshake. -/
theorem getCertificate_merge_raw_precedence_witness :
    getCertificate "example.com" 443 (NetOutcome.handshake (some peerExpired)) 5000 certNow =
      Except.ok (combine (parseCertificate forgeExpired certNow)
        (mkRawCertData "example.com" 443 peerExpired certNow)) :=
  (getCertificate_merge_raw_precedence "example.com" 443 peerExpired forgeExpired 5000 certNow rfl).1

/-- C3. For non-empty host and port lists the batch scan returns exactly one
record per (host, port) pair, hosts iterated outer and ports inner; the record
at position `i * |ports| + j` is the outcome for `(hosts[i], ports[j])`; a
pair whose probe/decode fails yields a `status = 'error'` record carrying the
failure reason, and a successful pair yields its certificate record. The
functions are total, so the batch never throws to its caller. -/
theorem scanHosts_complete (net : String → Int → NetOutcome) (hosts : List String)
    (ports : List Int) (t : Nat) (now : Int) (hh : hosts ≠ []) (hp : ports ≠ []) :
    (scanHosts net hosts ports t now).length = hosts.length * ports.length ∧
    (∀ i j, (hi : i < hosts.length) → (hj : j < ports.length) →
      (scanHosts net hosts ports t now)[i * ports.length + j]? =
        some (scanRecordFor net t now hosts[i] ports[j])) ∧
    (∀ h p e, getCertificate h p (net h p) t now = .error e →
      scanRecordFor net t now h p = .err h p e now ∧
      (scanRecordFor net t now h p).status = "error" ∧
      (scanRecordFor net t now h p).errMsg = some e) ∧
    (∀ h p c, getCertificate h p (net h p) t now = .ok c →
      scanRecordFor net t now h p = .ok c) := by
  refine ⟨scanHosts_length net hosts ports t now, ?_, ?_, ?_⟩
  · intro i j hi hj
    exact scanHosts_getElem net hosts ports t now i j hi hj
  · intro h p e he
    simp [scanRecordFor, he, ScanRecord.status, ScanRecord.errMsg]
  · intro h p c hc
    simp [scanRecordFor, hc]

/-- Network oracle for the C3 witness: host `a` completes a handshake, host
`b` refuses the connection. -/
def netW : String → Int → NetOutcome := fun h _ =>
  if h = "a" then NetOutcome.handshake (some peerExpired)
  else NetOutcome.connErr "connect ECONNREFUSED"

/-- C3 witness: two hosts, one port, one reachable and one refused, give
exactly two records. -/
theorem scanHosts_complete_witness :
    (["a", "b"] : List String) ≠ [] ∧ (scanHosts netW ["a", "b"] [443] 5000 certNow).length = 2 :=
  ⟨by decide, by
    simpa using (scanHosts_complete netW ["a", "b"] [443] 5000 certNow (by decide) (by decide)).1⟩

/-! ## Fingerprint format lemmas -/

theorem hexDigit_mem (n : Nat) : hexDigit n ∈ hexDigits := by
  rcases Nat.lt_or_ge n 16 with h | h
  · interval_cases n <;> decide
  · have hlen : hexDigits.length ≤ n := by simpa [hexDigits] using h
    simp [hexDigit, List.getD_eq_getElem?_getD, List.getElem?_eq_none hlen]
    decide

theorem byteHex_length (b : Nat) : (byteHex b).length = 2 := rfl

theorem byteHex_chars (b : Nat) : ∀ ch ∈ (byteHex b).data, ch ∈ hexDigits := by
  intro ch hch
  simp [byteHex] at hch
  rcases hch with rfl | rfl
  · exact hexDigit_mem _
  · exact hexDigit_mem _

theorem wordBytes_lt (w : Nat) : ∀ b ∈ wordBytes w, b < 256 := by
  intro b hb
  simp [wordBytes] at hb
  rcases hb with rfl | rfl | rfl | rfl <;> exact Nat.mod_lt _ (by norm_num)

theorem sha256_length (msg : List Nat) : (sha256 msg).length = 32 := by
  simp [sha256, h8ToBytes, wordBytes]

theorem sha256_lt (msg : List Nat) : ∀ b ∈ sha256 msg, b < 256 := by
  intro b hb
  simp only [sha256, h8ToBytes, List.mem_append] at hb
  rcases hb with (((((((h | h) | h) | h) | h) | h) | h) | h) <;> exact wordBytes_lt _ _ h

/-- C4. The fingerprint of the decoded record is the SHA-256 digest of the
DER-encoded certificate bytes rendered as lower-case hex pairs joined by
colons: exactly 32 digest bytes, each rendered as two lower-case hex
characters; the result depends only on the DER bytes, so decoding the same
raw bytes twice yields identical fingerprint strings. -/
theorem parseCertificate_fingerprint_sha256 (c : ForgeCert) (now : Int) :
    (parseCertificate c now).fingerprint = sha256Fingerprint c.derBytes ∧
    sha256Fingerprint c.derBytes = String.intercalate ":" ((sha256 c.derBytes).map byteHex) ∧
    (sha256 c.derBytes).length = 32 ∧
    (∀ b ∈ sha256 c.derBytes, b < 256) ∧
    (∀ s ∈ (sha256 c.derBytes).map byteHex, s.length = 2 ∧ ∀ ch ∈ s.data, ch ∈ hexDigits) ∧
    (∀ c2 now2, c2.derBytes = c.derBytes →
      (parseCertificate c2 now2).fingerprint = (parseCertificate c now).fingerprint) := by
  refine ⟨rfl, rfl, sha256_length _, sha256_lt _, ?_, ?_⟩
  · intro s hs
    rcases List.mem_map.mp hs with ⟨b, _, rfl⟩
    exact ⟨byteHex_length b, byteHex_chars b⟩
  · intro c2 now2 h
    exact congrArg sha256Fingerprint h

/-- C4 witness: decoding the same DER bytes at two different instants yields
the same fingerprint string. -/
theorem parseCertificate_fingerprint_sha256_witness :
    (parseCertificate forgeExpired 0).fingerprint = (parseCertificate forgeExpired certNow).fingerprint :=
  (parseCertificate_fingerprint_sha256 forgeExpired certNow).2.2.2.2.2 forgeExpired 0 rfl

/-- C7 counterexample: a DN object whose attribute list exists but is empty is
truthy in JS, so formatDN joins zero pairs and returns the empty string, not
the literal `Unknown` the claim requires. -/
theorem formatDN_empty_attrs_not_unknown :
    formatDN (some ⟨some []⟩) = "" ∧ formatDN (some ⟨some []⟩) ≠ "Unknown" := by
  decide

/-- C7 amended. formatDN joins the attributes as `ShortName=Value` pairs (the
attribute's full name when the short name is absent) in certificate order,
separated by comma-space; it returns `Unknown` only when the DN or its
attributes FIELD is missing. A DN carrying an empty attribute list formats as
the empty string; it is the caller (parseCertificate's `|| 'Unknown'`
fallback) that resolves that empty string to `Unknown`. -/
theorem formatDN_formats :
    (∀ dn attrs, dn.attributes = some attrs →
      formatDN (some dn) = String.intercalate ", "
        (attrs.map (fun a => (if a.shortName = "" then a.name else a.shortName) ++ "=" ++ a.value))) ∧
    formatDN none = "Unknown" ∧
    (∀ dn, dn.attributes = none → formatDN (some dn) = "Unknown") ∧
    (∀ c now, c.subject = some ⟨some []⟩ → (parseCertificate c now).subject = "Unknown") := by
  refine ⟨?_, rfl, ?_, ?_⟩
  · intro dn attrs h
    simp [formatDN, h]
  · intro dn h
    simp [formatDN, h]
  · intro c now h
    rw [show (parseCertificate c now).subject = dnOrUnknown c.subject from rfl, h]
    decide

/-- C7 witness: the amended formatting law applied to a one-attribute DN. -/
theorem formatDN_formats_witness :
    formatDN (some ⟨some [⟨"CN", "commonName", "example.com"⟩]⟩) = "CN=example.com" := by
  have h := formatDN_formats.1 ⟨some [⟨"CN", "commonName", "example.com"⟩]⟩
      [⟨"CN", "commonName", "example.com"⟩] rfl
  simpa using h

/-- C8. The decoder's selfSigned flag is exactly the equality of the resolved
issuer and subject strings, both produced by the same DN resolution
(formatDN plus the `|| 'Unknown'` fallback); in particular a certificate
whose resolved issuer differs from its resolved subject gets
`selfSigned = false`. -/
theorem parseCertificate_selfSigned_iff (c : ForgeCert) (now : Int) :
    ((parseCertificate c now).selfSigned = true ↔
      (parseCertificate c now).issuer = (parseCertificate c now).subject) ∧
    (parseCertificate c now).subject = dnOrUnknown c.subject ∧
    (parseCertificate c now).issuer = dnOrUnknown c.issuer ∧
    (dnOrUnknown c.issuer ≠ dnOrUnknown c.subject → (parseCertificate c now).selfSigned = false) := by
  refine ⟨?_, rfl, rfl, ?_⟩
  · simp [parseCertificate]
  · intro h
    have hb : (dnOrUnknown c.issuer == dnOrUnknown c.subject) = false := beq_eq_false_iff_ne.mpr h
    simpa [parseCertificate] using hb

/-- C8 witness: a chain-issued fixture whose issuer and subject strings
differ is not flagged self-signed. -/
theorem parseCertificate_selfSigned_iff_witness :
    (parseCertificate forgeExpired certNow).selfSigned = false :=
  (parseCertificate_selfSigned_iff forgeExpired certNow).2.2.2 (by decide)

/-! ## Scheduler (src scheduler module): timer registry model -/

/-- Scheduled scan definition record. -/
structure ScheduledScan where
  id : Nat
  name : String
  hosts : List String
  ports : List Int
  frequency : String
  active : Bool
  lastRun : Option Int
  nextRun : Option Int
  deriving DecidableEq

/-- JS `Map.get`: the value stored under a key (generic in the value type). -/
def mapLookup {α : Type} : List (Nat × α) → Nat → Option α
  | [], _ => none
  | kv :: rest, k => if kv.1 = k then some kv.2 else mapLookup rest k

/-- JS `Map.set`: replace in place when the key exists, append otherwise. -/
def mapSet {α : Type} : List (Nat × α) → Nat → α → List (Nat × α)
  | [], k, v => [(k, v)]
  | kv :: rest, k, v => if kv.1 = k then (k, v) :: rest else kv :: mapSet rest k v

/-- JS `Map.delete`: remove the entry stored under a key. -/
def mapDelete {α : Type} : List (Nat × α) → Nat → List (Nat × α)
  | [], _ => []
  | kv :: rest, k => if kv.1 = k then rest else kv :: mapDelete rest k

theorem mapLookup_delete_ne {α : Type} : ∀ (m : List (Nat × α)) (k k' : Nat), k' ≠ k →
    mapLookup (mapDelete m k) k' = mapLookup m k'
  | [], _, _, _ => rfl
  | kv :: rest, k, k', h => by
      by_cases hk : kv.1 = k
      · simp only [mapDelete, if_pos hk, mapLookup]
        rw [if_neg (fun hc => h (hc.symm.trans hk))]
      · simp only [mapDelete, if_neg hk, mapLookup]
        by_cases hk' : kv.1 = k'
        · rw [if_pos hk', if_pos hk']
        · rw [if_neg hk', if_neg hk']
          exact mapLookup_delete_ne rest k k' h

theorem mapLookup_set_self {α : Type} : ∀ (m : List (Nat × α)) (k : Nat) (v : α),
    mapLookup (mapSet m k v) k = some v
  | [], k, v => by simp [mapSet, mapLookup]
  | kv :: rest, k, v => by
      by_cases hk : kv.1 = k
      · simp [mapSet, hk, mapLookup]
      · simp only [mapSet, if_neg hk, mapLookup, if_neg hk]
        exact mapLookup_set_self rest k v

theorem mapLookup_set_ne {α : Type} : ∀ (m : List (Nat × α)) (k : Nat) (v : α) (k' : Nat), k' ≠ k →
    mapLookup (mapSet m k v) k' = mapLookup m k'
  | [], k, v, k', h => by
      simp only [mapSet, mapLookup]
      rw [if_neg (fun hc => h hc.symm)]
  | kv :: rest, k, v, k', h => by
      by_cases hk : kv.1 = k
      · simp only [mapSet, if_pos hk, mapLookup]
        rw [if_neg (fun hc => h hc.symm), if_neg (fun hc => h (hc.symm.trans hk))]
      · simp only [mapSet, if_neg hk, mapLookup]
        by_cases hk' : kv.1 = k'
        · rw [if_pos hk', if_pos hk']
        · rw [if_neg hk', if_neg hk']
          exact mapLookup_set_ne rest k v k' h

/-- Scheduler registry state. `activeJobs` is the `Map` from scan id to the
STORED job object: `some token` for a real node-schedule job (jobs are
identified by fresh tokens drawn from `counter`), and `none` for the null
that `schedule.scheduleJob` returns when the cron rule is invalid — the
source stores that null in the map too. `liveTimers` holds the
`(token, owner scan id)` pairs of registered jobs that have not been
cancelled; a leaked timer (overwritten in the map without being cancelled)
would stay in `liveTimers`. -/
structure SchedulerState where
  counter : Nat
  activeJobs : List (Nat × Option Nat)
  liveTimers : List (Nat × Nat)

/-- The cancellation prefix of scheduleJob:
`if (activeJobs.has(scan.id)) { activeJobs.get(scan.id).cancel();
activeJobs.delete(scan.id); }`. This block sits OUTSIDE the try, so when the
stored job is the null of a previously failed scheduling, `.cancel()` throws
a TypeError that propagates to the caller with no state change. -/
def cancelExisting (st : SchedulerState) (id : Nat) : Except String SchedulerState :=
  match mapLookup st.activeJobs id with
  | none => .ok st
  | some (some tok) =>
      .ok { st with activeJobs := mapDelete st.activeJobs id,
                    liveTimers := st.liveTimers.filter (fun p => p.1 ≠ tok) }
  | some none => .error "TypeError: Cannot read properties of null (reading 'cancel')"

/-- Frequency-to-cron resolution of scheduleJob (any other value is treated
as a raw cron expression). -/
def frequencyRule (f : String) : String :=
  match f with
  | "hourly" => "0 * * * *"
  | "daily" => "0 0 * * *"
  | "weekly" => "0 0 * * 0"
  | "monthly" => "0 0 1 * *"
  | _ => f

/-- scheduleJob from the scheduler module, parametrized by node-schedule's
rule acceptance (`validRule`): cancel any existing job for the id (throws on
a stored null job), stop if the scan is inactive, otherwise call
`schedule.scheduleJob(rule, cb)`. For an accepted rule this registers a live
timer and stores it. For an invalid rule the library returns null, which the
source still stores in the map (`activeJobs.set(scan.id, job)`) before
`job.nextInvocation()` throws into the surrounding catch: the function
returns normally, leaving a dangling null entry and NO live timer. The
fire-and-forget `nextRun` persistence is a store write outside the
registry. -/
def scheduleJob (validRule : String → Bool) (st : SchedulerState)
    (scan : ScheduledScan) : Except String SchedulerState :=
  match cancelExisting st scan.id with
  | .error e => .error e
  | .ok st1 =>
      if scan.active then
        if validRule (frequencyRule scan.frequency) then
          .ok { counter := st1.counter + 1
                activeJobs := mapSet st1.activeJobs scan.id (some st1.counter)
                liveTimers := st1.liveTimers ++ [(st1.counter, scan.id)] }
        else
          .ok { st1 with activeJobs := mapSet st1.activeJobs scan.id none }
      else .ok st1

/-- Live timers owned by one scan id. -/
def liveFor (st : SchedulerState) (id : Nat) : List (Nat × Nat) :=
  st.liveTimers.filter (fun p => p.2 = id)

/-- Registry well-formedness: live tokens are below the freshness counter,
pairwise distinct, and each live timer is exactly the (non-null) job the map
stores for its owner. A dangling null entry is allowed — the program creates
one for every invalid cron rule. -/
def SchedInv (st : SchedulerState) : Prop :=
  (∀ p ∈ st.liveTimers, p.1 < st.counter) ∧
  st.liveTimers.Pairwise (fun p q => p.1 ≠ q.1) ∧
  (∀ p ∈ st.liveTimers, mapLookup st.activeJobs p.2 = some (some p.1))

theorem length_le_one_of_all_fst_eq {l : List (Nat × Nat)} {t : Nat}
    (hpw : l.Pairwise (fun p q => p.1 ≠ q.1)) (hall : ∀ p ∈ l, p.1 = t) :
    l.length ≤ 1 := by
  match l with
  | [] => simp
  | [p] => simp
  | p :: q :: rest =>
      exfalso
      have h1 := hall p (by simp)
      have h2 := hall q (by simp)
      have hne := (List.pairwise_cons.mp hpw).1 q (by simp)
      exact hne (h1.trans h2.symm)

theorem liveFor_le_one {st : SchedulerState} (hInv : SchedInv st) (id : Nat) :
    (liveFor st id).length ≤ 1 := by
  obtain ⟨hlt, hpw, hmir⟩ := hInv
  cases hcase : mapLookup st.activeJobs id with
  | none =>
      have hnil : liveFor st id = [] := by
        apply List.filter_eq_nil_iff.mpr
        intro p hp
        simp only [decide_eq_true_eq]
        intro hpid
        have := hmir p hp
        rw [hpid, hcase] at this
        exact Option.noConfusion this
      simp [hnil]
  | some v =>
      cases v with
      | none =>
          have hnil : liveFor st id = [] := by
            apply List.filter_eq_nil_iff.mpr
            intro p hp
            simp only [decide_eq_true_eq]
            intro hpid
            have := hmir p hp
            rw [hpid, hcase] at this
            exact Option.noConfusion (Option.some.inj this)
          simp [hnil]
      | some tok =>
          apply length_le_one_of_all_fst_eq (t := tok)
          · exact List.Pairwise.sublist (List.filter_sublist _) hpw
          · intro p hp
            have hmem := List.mem_of_mem_filter hp
            have hpid : p.2 = id := by simpa using List.of_mem_filter hp
            have := hmir p hmem
            rw [hpid, hcase] at this
            exact (Option.some.inj (Option.some.inj this)).symm

theorem cancelExisting_no_owner (st : SchedulerState) (id : Nat) (st1 : SchedulerState)
    (hInv : SchedInv st) (hok : cancelExisting st id = .ok st1) :
    ∀ p ∈ st1.liveTimers, p.2 ≠ id := by
  obtain ⟨hlt, hpw, hmir⟩ := hInv
  cases hcase : mapLookup st.activeJobs id with
  | none =>
      simp only [cancelExisting, hcase, Except.ok.injEq] at hok
      subst hok
      intro p hp hpid
      have := hmir p hp
      rw [hpid, hcase] at this
      exact Option.noConfusion this
  | some v =>
      cases v with
      | none =>
          simp only [cancelExisting, hcase] at hok
          exact Except.noConfusion hok
      | some tok =>
          simp only [cancelExisting, hcase, Except.ok.injEq] at hok
          subst hok
          intro p hp hpid
          have hmem := List.mem_of_mem_filter hp
          have hne : p.1 ≠ tok := by simpa using List.of_mem_filter hp
          have := hmir p hmem
          rw [hpid, hcase] at this
          exact hne (Option.some.inj (Option.some.inj this)).symm

theorem schedInv_cancelExisting (st : SchedulerState) (id : Nat) (st1 : SchedulerState)
    (hInv : SchedInv st) (hok : cancelExisting st id = .ok st1) :
    SchedInv st1 ∧ st1.counter = st.counter := by
  obtain ⟨hlt, hpw, hmir⟩ := hInv
  cases hcase : mapLookup st.activeJobs id with
  | none =>
      simp only [cancelExisting, hcase, Except.ok.injEq] at hok
      subst hok
      exact ⟨⟨hlt, hpw, hmir⟩, rfl⟩
  | some v =>
      cases v with
      | none =>
          simp only [cancelExisting, hcase] at hok
          exact Except.noConfusion hok
      | some tok =>
          simp only [cancelExisting, hcase, Except.ok.injEq] at hok
          subst hok
          refine ⟨⟨?_, ?_, ?_⟩, rfl⟩
          · intro p hp
            exact hlt p (List.mem_of_mem_filter hp)
          · exact List.Pairwise.sublist (List.filter_sublist _) hpw
          · intro p hp
            have hmem := List.mem_of_mem_filter hp
            have hne : p.1 ≠ tok := by simpa using List.of_mem_filter hp
            have hpid : p.2 ≠ id := by
              intro h
              apply hne
              have := hmir p hmem
              rw [h, hcase] at this
              exact (Option.some.inj (Option.some.inj this)).symm
            rw [mapLookup_delete_ne _ _ _ hpid]
            exact hmir p hmem

theorem schedInv_register (st1 : SchedulerState) (scanId : Nat)
    (hInv1 : SchedInv st1) (hown : ∀ p ∈ st1.liveTimers, p.2 ≠ scanId) :
    SchedInv { counter := st1.counter + 1,
               activeJobs := mapSet st1.activeJobs scanId (some st1.counter),
               liveTimers := st1.liveTimers ++ [(st1.counter, scanId)] } := by
  obtain ⟨hlt1, hpw1, hmir1⟩ := hInv1
  refine ⟨?_, ?_, ?_⟩
  · intro p hp
    rcases List.mem_append.mp hp with h | h
    · exact Nat.lt_succ_of_lt (hlt1 p h)
    · have : p = (st1.counter, scanId) := by simpa using h
      rw [this]
      exact Nat.lt_succ_self _
  · rw [List.pairwise_append]
    refine ⟨hpw1, by simp, ?_⟩
    intro p hp q hq
    have hq' : q = (st1.counter, scanId) := by simpa using hq
    rw [hq']
    exact Nat.ne_of_lt (hlt1 p hp)
  · intro p hp
    rcases List.mem_append.mp hp with h | h
    · rw [mapLookup_set_ne _ _ _ _ (hown p h)]
      exact hmir1 p h
    · have : p = (st1.counter, scanId) := by simpa using h
      rw [this]
      exact mapLookup_set_self _ _ _

theorem schedInv_nullJob (st1 : SchedulerState) (scanId : Nat)
    (hInv1 : SchedInv st1) (hown : ∀ p ∈ st1.liveTimers, p.2 ≠ scanId) :
    SchedInv { st1 with activeJobs := mapSet st1.activeJobs scanId none } := by
  obtain ⟨hlt1, hpw1, hmir1⟩ := hInv1
  refine ⟨hlt1, hpw1, ?_⟩
  intro p hp
  rw [mapLookup_set_ne _ _ _ _ (hown p hp)]
  exact hmir1 p hp

theorem filter_owner_append (lt : List (Nat × Nat)) (tok id : Nat)
    (hown : ∀ p ∈ lt, p.2 ≠ id) :
    (lt ++ [(tok, id)]).filter (fun p => p.2 = id) = [(tok, id)] := by
  rw [List.filter_append]
  have h1 : lt.filter (fun p => p.2 = id) = [] :=
    List.filter_eq_nil_iff.mpr (fun p hp => by simpa using hown p hp)
  rw [h1]
  simp

theorem scheduleJob_ok_cases (validRule : String → Bool) (st : SchedulerState)
    (scan : ScheduledScan) (st2 : SchedulerState)
    (hok : scheduleJob validRule st scan = .ok st2) :
    ∃ st1, cancelExisting st scan.id = .ok st1 ∧
      ((scan.active = true ∧ validRule (frequencyRule scan.frequency) = true ∧
          st2 = { counter := st1.counter + 1,
                  activeJobs := mapSet st1.activeJobs scan.id (some st1.counter),
                  liveTimers := st1.liveTimers ++ [(st1.counter, scan.id)] }) ∨
        (scan.active = true ∧ validRule (frequencyRule scan.frequency) = false ∧
          st2 = { st1 with activeJobs := mapSet st1.activeJobs scan.id none }) ∨
        (scan.active = false ∧ st2 = st1)) := by
  unfold scheduleJob at hok
  cases hc : cancelExisting st scan.id with
  | error e =>
      rw [hc] at hok
      simp at hok
  | ok st1 =>
      rw [hc] at hok
      simp only [] at hok
      refine ⟨st1, rfl, ?_⟩
      by_cases hact : scan.active = true
      · rw [if_pos hact] at hok
        by_cases hval : validRule (frequencyRule scan.frequency) = true
        · rw [if_pos hval] at hok
          injection hok with hok
          exact Or.inl ⟨hact, hval, hok.symm⟩
        · rw [if_neg hval] at hok
          injection hok with hok
          have hval' : validRule (frequencyRule scan.frequency) = false := by
            revert hval
            cases validRule (frequencyRule scan.frequency) <;> simp
          exact Or.inr (Or.inl ⟨hact, hval', hok.symm⟩)
      · rw [if_neg hact] at hok
        injection hok with hok
        have hact' : scan.active = false := by
          revert hact
          cases scan.active <;> simp
        exact Or.inr (Or.inr ⟨hact', hok.symm⟩)

theorem scheduleJob_arm_ok (validRule : String → Bool) (st1 : SchedulerState)
    (scan : ScheduledScan) (hInv1 : SchedInv st1) (hact : scan.active = true)
    (hval : validRule (frequencyRule scan.frequency) = true) (tok : Nat)
    (hmap : mapLookup st1.activeJobs scan.id = some (some tok)) :
    ∃ st2, scheduleJob validRule st1 scan = .ok st2 ∧
      (liveFor st2 scan.id).length = 1 := by
  have hc1 : cancelExisting st1 scan.id = .ok
      { st1 with activeJobs := mapDelete st1.activeJobs scan.id,
                 liveTimers := st1.liveTimers.filter (fun p => p.1 ≠ tok) } := by
    simp only [cancelExisting, hmap]
  have hown1 := cancelExisting_no_owner st1 scan.id _ hInv1 hc1
  refine ⟨{ counter := st1.counter + 1,
            activeJobs := mapSet (mapDelete st1.activeJobs scan.id) scan.id (some st1.counter),
            liveTimers := (st1.liveTimers.filter (fun p => p.1 ≠ tok)) ++ [(st1.counter, scan.id)] },
          ?_, ?_⟩
  · unfold scheduleJob
    rw [hc1]
    simp [hact, hval]
  · show ((st1.liveTimers.filter (fun p => p.1 ≠ tok) ++
        [(st1.counter, scan.id)]).filter (fun p => p.2 = scan.id)).length = 1
    rw [filter_owner_append _ _ _ hown1]
    rfl

/-- C5 amended. Every non-throwing arm preserves the registry invariant, so
at every point the registry holds at most one live timer per scan id; and an
`arm` immediately followed by a second `arm` of the same active scan leaves
exactly one live timer for its id PROVIDED the scan's frequency resolves to
a rule the timer library accepts. (For an invalid frequency the first arm
stores the library's null job — no live timer, a dangling registry entry —
and the second arm throws while cancelling it; see the counterexample.) -/
theorem scheduleJob_single_live_timer (validRule : String → Bool) (st : SchedulerState)
    (scan : ScheduledScan) (hInv : SchedInv st) :
    (∀ st2, scheduleJob validRule st scan = .ok st2 →
      SchedInv st2 ∧ ∀ id, (liveFor st2 id).length ≤ 1) ∧
    (scan.active = true → validRule (frequencyRule scan.frequency) = true →
      ∀ st1, scheduleJob validRule st scan = .ok st1 →
        ∃ st2, scheduleJob validRule st1 scan = .ok st2 ∧
          (liveFor st2 scan.id).length = 1) := by
  have hpres : ∀ st2, scheduleJob validRule st scan = .ok st2 → SchedInv st2 := by
    intro st2 hok
    obtain ⟨st1, hc, hcases⟩ := scheduleJob_ok_cases validRule st scan st2 hok
    obtain ⟨hInv1, hcnt⟩ := schedInv_cancelExisting st scan.id st1 hInv hc
    have hown := cancelExisting_no_owner st scan.id st1 hInv hc
    rcases hcases with ⟨_, _, rfl⟩ | ⟨_, _, rfl⟩ | ⟨_, rfl⟩
    · exact schedInv_register st1 scan.id hInv1 hown
    · exact schedInv_nullJob st1 scan.id hInv1 hown
    · exact hInv1
  constructor
  · intro st2 hok
    exact ⟨hpres st2 hok, fun id => liveFor_le_one (hpres st2 hok) id⟩
  · intro hact hval st1 h1
    have hInv1 := hpres st1 h1
    obtain ⟨st0, hc0, hcases0⟩ := scheduleJob_ok_cases validRule st scan st1 h1
    have hmap : mapLookup st1.activeJobs scan.id = some (some st0.counter) := by
      rcases hcases0 with ⟨_, _, rfl⟩ | ⟨_, hval0, _⟩ | ⟨hact0, _⟩
      · exact mapLookup_set_self _ _ _
      · rw [hval] at hval0
        exact Bool.noConfusion hval0
      · rw [hact] at hact0
        exact Bool.noConfusion hact0
    exact scheduleJob_arm_ok validRule st1 scan hInv1 hact hval st0.counter hmap

/-- Rule-acceptance oracle for the fixtures: node-schedule accepts everything
except the nonsense expression used by the invalid-frequency scan. -/
def validRuleW : String → Bool := fun r => !(r == "every blue moon")

/-- Empty registry for the C5 fixtures. -/
def schedState0 : SchedulerState := ⟨0, [], []⟩

/-- An active daily scan definition for the C5 witness. -/
def scanA : ScheduledScan :=
  { id := 7, name := "daily scan", hosts := ["a"], ports := [443],
    frequency := "daily", active := true, lastRun := none, nextRun := none }

/-- An active scan whose stored frequency is an invalid cron expression. -/
def scanBad : ScheduledScan :=
  { id := 7, name := "bad cron scan", hosts := ["a"], ports := [443],
    frequency := "every blue moon", active := true, lastRun := none, nextRun := none }

/-- C5 counterexample. Arming a scan with an invalid frequency stores the
library's null job: the first arm succeeds but leaves ZERO live timers (and a
dangling `(7, null)` registry entry), and the immediately following second
arm throws a TypeError from `activeJobs.get(scan.id).cancel()` — not the
`exactly one live timer` the claim promises for every arm-twice sequence. -/
theorem scheduleJob_invalid_rule_cex :
    scheduleJob validRuleW schedState0 scanBad =
      .ok ⟨0, [(7, none)], []⟩ ∧
    liveFor ⟨0, [(7, none)], []⟩ scanBad.id = [] ∧
    scheduleJob validRuleW ⟨0, [(7, none)], []⟩ scanBad =
      .error "TypeError: Cannot read properties of null (reading 'cancel')" :=
  ⟨rfl, rfl, rfl⟩

/-- First-arm result of `scanA` from the empty registry. -/
def stA1 : SchedulerState := ⟨1, [(7, some 0)], [(0, 7)]⟩

/-- C5 witness: for the valid daily scan, the first arm from the empty
registry succeeds, and the immediate second arm leaves exactly one live
timer for its id. -/
theorem scheduleJob_single_live_timer_witness :
    SchedInv schedState0 ∧
    (∃ st2, scheduleJob validRuleW stA1 scanA = .ok st2 ∧
      (liveFor st2 scanA.id).length = 1) := by
  have hInv : SchedInv schedState0 :=
    ⟨by simp [schedState0], by simp [schedState0], by simp [schedState0]⟩
  exact ⟨hInv,
    (scheduleJob_single_live_timer validRuleW schedState0 scanA hInv).2 rfl rfl stA1 rfl⟩

/-! ## Persistence store and runScanNow -/

/-- One row of the `certificates` table created by the database module
(src/unnamed/part_001): twelve data columns with `UNIQUE(host, port)`. The
autoincrement rowid is referenced by no claim and omitted; columns a record
may leave undefined are `Option`-typed (bound as NULL), while `self_signed`
is always `certData.selfSigned ? 1 : 0`, never NULL. An error record's
`error` reason has no column, so it is never persisted. -/
structure CertRow where
  host : String
  port : Int
  subject : Option String
  issuer : Option String
  valid_from : Option Int
  valid_to : Option Int
  fingerprint : Option String
  signature_algorithm : Option String
  self_signed : Bool
  status : Option String
  last_scanned : Option Int
  days_remaining : Option Int
  deriving DecidableEq

/-- Column bindings of `db.saveCertificate` applied to one scan result:
success records carry every field, the error object literal leaves the
certificate columns undefined (stored NULL). -/
def rowOfRecord : ScanRecord → CertRow
  | .ok c =>
      { host := c.host, port := c.port, subject := c.subject, issuer := some c.issuer,
        valid_from := c.validFrom, valid_to := c.validTo, fingerprint := some c.fingerprint,
        signature_algorithm := c.signatureAlgorithm, self_signed := c.selfSigned.getD false,
        status := some c.status, last_scanned := some c.lastScanned,
        days_remaining := some c.daysRemaining }
  | .err h p _ t =>
      { host := h, port := p, subject := none, issuer := none, valid_from := none,
        valid_to := none, fingerprint := none, signature_algorithm := none,
        self_signed := false, status := some "error", last_scanned := some t,
        days_remaining := none }

/-- State of the SQLite store of the database module (src/unnamed/part_001):
the `certificates` table (unique per (host, port)) and the `scheduled_scans`
table, rows carried as the module's fetch helpers return them (hosts and
ports JSON-decoded, active as a Bool). -/
structure DB where
  certificates : List CertRow
  scheduledScans : List ScheduledScan
  deriving DecidableEq

/-- db.getScheduledScanById from the database module:
`SELECT * FROM scheduled_scans WHERE id = ?` via `db.get` — the first (by
the primary key, only) row with that id, JSON-decoded. -/
def getScheduledScanById (db : DB) (id : Nat) : Option ScheduledScan :=
  db.scheduledScans.find? (fun s => s.id == id)

/-- db.updateScheduledScanTimes from the database module:
`UPDATE scheduled_scans SET last_run = ?, next_run = ? WHERE id = ?`. -/
def updateScheduledScanTimes (db : DB) (id : Nat) (lastRun nextRun : Option Int) : DB :=
  let upd := fun s : ScheduledScan =>
    if s.id = id then { s with lastRun := lastRun, nextRun := nextRun } else s
  { db with scheduledScans := db.scheduledScans.map upd }

/-- db.saveCertificate from the database module:
`INSERT OR REPLACE INTO certificates (...)` under `UNIQUE(host, port)` —
SQLite deletes any row conflicting on (host, port) and inserts the new row
with a fresh rowid, hence at the end in rowid order. -/
def saveCertificate (db : DB) (r : ScanRecord) : DB :=
  let kept := db.certificates.filter (fun c => !(c.host == r.host && c.port == r.port))
  { db with certificates := kept ++ [rowOfRecord r] }

/-- runScanNow from the scheduler module: fetch the definition (throwing
`not found` before any scan or store write when it is absent), run the batch
scan, save every result, then persist `lastRun = now` while passing the
STORED `scan.nextRun` back unchanged. -/
def runScanNow (db : DB) (net : String → Int → NetOutcome) (t : Nat) (now : Int)
    (scanId : Nat) : DB × Except String (List ScanRecord) :=
  match getScheduledScanById db scanId with
  | none => (db, .error ("Scheduled scan with ID " ++ toString scanId ++ " not found"))
  | some scan =>
      let results := scanHosts net scan.hosts scan.ports t now
      let db1 := results.foldl saveCertificate db
      let db2 := updateScheduledScanTimes db1 scan.id (some now) scan.nextRun
      (db2, .ok results)

/-- C9. For an id with no stored definition, runScanNow fails with the
`not found` error and the returned store is the input store itself: the
failure happens before any scan and before any persistence write. -/
theorem runScanNow_missing_id (db : DB) (net : String → Int → NetOutcome)
    (t : Nat) (now : Int) (scanId : Nat) (h : getScheduledScanById db scanId = none) :
    runScanNow db net t now scanId =
      (db, .error ("Scheduled scan with ID " ++ toString scanId ++ " not found")) := by
  simp only [runScanNow, h]

/-- Empty store for the C9 witness. -/
def dbEmpty : DB := ⟨[], []⟩

/-- C9 witness: running an unknown id against the empty store throws and
leaves the store untouched. -/
theorem runScanNow_missing_id_witness :
    runScanNow dbEmpty netW 5000 certNow 42 =
      (dbEmpty, .error ("Scheduled scan with ID " ++ toString (42 : Nat) ++ " not found")) :=
  runScanNow_missing_id dbEmpty netW 5000 certNow 42 rfl

/-! ## POST /api/scan route handler (src/api scan router) -/

/-- Entry of the `processedResults` array the handler returns to the caller.
The random `id` field (`cert.id || Math.floor(Math.random() * 1000000)`) is
nondeterministic and referenced by no claim, so it is omitted. -/
structure ProcessedCert where
  hostname : String
  port : Int
  issuer : String
  subject : String
  commonName : String
  organization : String
  validFrom : Int
  validTo : Int
  fingerprint : String
  signatureAlgorithm : String
  selfSigned : Bool
  daysRemaining : Int
  keyUsage : String
  status : String
  lastScanned : Int
  error : Option String
  deriving DecidableEq

/-- The per-record normalization in the handler's `results.map`: every `||`
default of the object literal, applied to a scanner result. Scanner records
carry `host` (never `hostname`), success records carry every certificate
field, and error records carry only host/port/status/error/lastScanned. -/
def processOne (now : Int) : ScanRecord → ProcessedCert
  | .ok c =>
      { hostname := if c.host = "" then (if c.commonName = "" then "unknown" else c.commonName) else c.host
        port := if c.port = 0 then 443 else c.port
        issuer := if c.issuer = "" then "Unknown" else c.issuer
        subject := jsOrString c.subject "Unknown"
        commonName := c.commonName
        organization := c.organization
        validFrom := c.validFrom.getD now
        validTo := c.validTo.getD now
        fingerprint := c.fingerprint
        signatureAlgorithm := jsOrString c.signatureAlgorithm "Unknown"
        selfSigned := c.selfSigned.getD false
        daysRemaining := c.daysRemaining
        keyUsage := c.keyUsage.getD ""
        status := if c.status = "" then "valid" else c.status
        lastScanned := c.lastScanned
        error := none }
  | .err h p m t =>
      { hostname := if h = "" then "unknown" else h
        port := if p = 0 then 443 else p
        issuer := "Unknown"
        subject := "Unknown"
        commonName := ""
        organization := ""
        validFrom := now
        validTo := now
        fingerprint := ""
        signatureAlgorithm := "Unknown"
        selfSigned := false
        daysRemaining := 0
        keyUsage := ""
        status := "error"
        lastScanned := t
        error := if m = "" then none else some m }

/-- The `processedResults` array of the handler: one entry per scan result. -/
def processResults (now : Int) (results : List ScanRecord) : List ProcessedCert :=
  results.map (processOne now)

/-- The persistence loop of the handler: save each result whose status is not
`'error'`, skip the error records. -/
def apiScanSaveResults (db : DB) (results : List ScanRecord) : DB :=
  results.foldl (fun d cert => if cert.status ≠ "error" then saveCertificate d cert else d) db

/-- Stored certificate row for a (host, port) pair. -/
def findCert (db : DB) (h : String) (p : Int) : Option CertRow :=
  db.certificates.find? (fun c => c.host == h && c.port == p)

theorem keyPred_false {a h : String} {b p : Int}
    (hne : ¬(a = h ∧ b = p)) : (a == h && b == p) = false := by
  by_cases h1 : a = h
  · have h2 : b ≠ p := fun h2 => hne ⟨h1, h2⟩
    simp [h1, h2]
  · simp [h1]

theorem find?_append_one_of_not {α : Type} (l : List α) (r : α) (p : α → Bool)
    (hpr : p r = false) : (l ++ [r]).find? p = l.find? p := by
  induction l with
  | nil => simp [List.find?_cons, hpr]
  | cons c rest ih =>
      rw [List.cons_append]
      cases hc : p c with
      | true => simp only [List.find?_cons, hc]
      | false =>
          simp only [List.find?_cons, hc]
          exact ih

theorem find?_filter_of_subsume {α : Type} (l : List α) (p q : α → Bool)
    (hpq : ∀ c, p c = true → q c = true) :
    (l.filter q).find? p = l.find? p := by
  induction l with
  | nil => rfl
  | cons c rest ih =>
      cases hq : q c with
      | true =>
          rw [List.filter_cons_of_pos hq]
          cases hc : p c with
          | true => simp only [List.find?_cons, hc]
          | false =>
              simp only [List.find?_cons, hc]
              exact ih
      | false =>
          have hc : p c = false := by
            cases hcc : p c with
            | false => rfl
            | true =>
                rw [hpq c hcc] at hq
                exact Bool.noConfusion hq
          rw [List.filter_cons_of_neg (by simp [hq])]
          simp only [List.find?_cons, hc]
          exact ih

theorem findCert_save_ne (db : DB) (r : ScanRecord) (h : String) (p : Int)
    (hne : ¬(r.host = h ∧ r.port = p)) :
    findCert (saveCertificate db r) h p = findCert db h p := by
  have hhost : (rowOfRecord r).host = r.host := by cases r <;> rfl
  have hport : (rowOfRecord r).port = r.port := by cases r <;> rfl
  have hrow : ((rowOfRecord r).host == h && (rowOfRecord r).port == p) = false := by
    rw [hhost, hport]
    exact keyPred_false hne
  have hsub : ∀ c : CertRow, (c.host == h && c.port == p) = true →
      (!(c.host == r.host && c.port == r.port)) = true := by
    intro c hc
    have hc' : c.host = h ∧ c.port = p := by simpa using hc
    have hck : ¬(c.host = r.host ∧ c.port = r.port) := by
      rintro ⟨e1, e2⟩
      exact hne ⟨e1.symm.trans hc'.1, e2.symm.trans hc'.2⟩
    rw [keyPred_false hck]
    rfl
  simp only [findCert, saveCertificate]
  rw [find?_append_one_of_not _ (rowOfRecord r) (fun c => c.host == h && c.port == p) hrow]
  exact find?_filter_of_subsume db.certificates
    (fun c : CertRow => c.host == h && c.port == p)
    (fun c : CertRow => !(c.host == r.host && c.port == r.port)) hsub

theorem findCert_apiScanSaveResults (db : DB) (results : List ScanRecord)
    (h : String) (p : Int)
    (hno : ∀ r ∈ results, r.status ≠ "error" → ¬(r.host = h ∧ r.port = p)) :
    findCert (apiScanSaveResults db results) h p = findCert db h p := by
  induction results generalizing db with
  | nil => rfl
  | cons r rest ih =>
      unfold apiScanSaveResults
      rw [List.foldl_cons]
      by_cases hr : r.status = "error"
      · rw [if_neg (fun hne => hne hr)]
        exact ih db (fun r' hm => hno r' (List.mem_cons_of_mem _ hm))
      · rw [if_pos hr]
        have hstep : findCert (apiScanSaveResults (saveCertificate db r) rest) h p =
            findCert (saveCertificate db r) h p :=
          ih (saveCertificate db r) (fun r' hm => hno r' (List.mem_cons_of_mem _ hm))
        exact hstep.trans (findCert_save_ne db r h p (hno r (List.mem_cons_self _ _) hr))

theorem apiScanSaveResults_eq_filter (db : DB) (results : List ScanRecord) :
    apiScanSaveResults db results =
      (results.filter (fun r => r.status ≠ "error")).foldl saveCertificate db := by
  induction results generalizing db with
  | nil => rfl
  | cons r rest ih =>
      unfold apiScanSaveResults
      rw [List.foldl_cons]
      by_cases hr : r.status = "error"
      · rw [if_neg (fun hne => hne hr)]
        rw [List.filter_cons_of_neg (by simp [hr])]
        exact ih db
      · rw [if_pos hr]
        rw [List.filter_cons_of_pos (by simp [hr])]
        rw [List.foldl_cons]
        exact ih (saveCertificate db r)

theorem processOne_status_error (now : Int) (r : ScanRecord) :
    (processOne now r).status = "error" ↔ r.status = "error" := by
  cases r with
  | ok c =>
      by_cases hc : c.status = ""
      · simp [processOne, ScanRecord.status, hc]
      · simp [processOne, ScanRecord.status, hc]
  | err h p m t => simp [processOne, ScanRecord.status]

/-- C10. The handler's persistence loop saves exactly the non-error results
(it is the fold of `saveCertificate` over the error-filtered list); a
(host, port) pair touched only by error-status results keeps its previously
stored record; and the JSON response still contains one processed entry per
result, error records included, with the error status preserved. -/
theorem apiScan_persists_only_non_error (db : DB) (results : List ScanRecord) (now : Int) :
    (apiScanSaveResults db results =
      (results.filter (fun r => r.status ≠ "error")).foldl saveCertificate db) ∧
    (∀ h p, (∀ r ∈ results, r.status ≠ "error" → ¬(r.host = h ∧ r.port = p)) →
      findCert (apiScanSaveResults db results) h p = findCert db h p) ∧
    (processResults now results).length = results.length ∧
    (∀ i, (hi : i < results.length) →
      (processResults now results)[i]? = some (processOne now results[i]) ∧
      ((processOne now results[i]).status = "error" ↔ results[i].status = "error")) := by
  refine ⟨apiScanSaveResults_eq_filter db results, ?_, by simp [processResults], ?_⟩
  · intro h p hno
    exact findCert_apiScanSaveResults db results h p hno
  · intro i hi
    constructor
    · simp [processResults, List.getElem?_map, List.getElem?_eq_getElem hi]
    · exact processOne_status_error now results[i]

/-- Store holding a stale record for host `b` for the C10 witness. -/
def dbErr : DB := ⟨[rowOfRecord (ScanRecord.err "b" 443 "stale result" 0)], []⟩

/-- C10 witness: an error-only scan of `b:443` leaves the stored record for
that pair unchanged. -/
theorem apiScan_persists_only_non_error_witness :
    findCert (apiScanSaveResults dbErr [ScanRecord.err "b" 443 "connect ECONNREFUSED" certNow]) "b" 443 =
      findCert dbErr "b" 443 :=
  (apiScan_persists_only_non_error dbErr [ScanRecord.err "b" 443 "connect ECONNREFUSED" certNow]
    certNow).2.1 "b" 443 (by decide)
